import Mathlib

/-!
Verification of `wos/read.py`: a reader library for Web of Science export
files ("plain text" and "tab-delimited" formats).

The Python source is shallowly embedded below:

* Python exceptions are modelled by the `PyError` type and fallible code
  returns `Except PyError _`.
* A Python file object opened for reading is modelled by `PyStream α`
  (the full data plus a read position) for the byte/char-level sniffing
  functions, and by a plain `List String` of remaining lines for the
  line-oriented readers (Python text-file iteration yields lines).
* Python `dict` values (the records) are modelled by insertion-ordered
  association lists with in-place overwrite (`recordSet`), matching
  Python dict insertion/update semantics.
* The static field-classification table `wos.tags.has_item_per_line`
  (a module not shipped with the reader's source file) is an explicit
  parameter `tbl : String → Option Bool`; a lookup returning `Option.none`
  models a Python `KeyError`.
-/

namespace Wos

set_option maxHeartbeats 1000000

/-- Python exceptions raised (or propagated) by the code under study:
`ReadError` (the library's own error class), `StopIteration` (iterator
exhaustion), `ValueError` (failed tuple unpacking of `str.split` results)
and `KeyError` (failed dict lookup). -/
inductive PyError where
  | readError (msg : String)
  | stopIteration
  | valueError
  | keyError
deriving DecidableEq, Repr

deriving instance DecidableEq for Except

/-- A value stored in a record: Python `str`, Python `list` of `str`
(produced by `csv.DictReader` for extra columns), or Python `None`
(produced by `csv.DictReader` for missing columns). -/
inductive PyVal where
  | str (s : String)
  | strs (l : List String)
  | null
deriving DecidableEq, Repr

/-- A record: a Python dict from field code to value.  The key
`Option.none` models the Python key `None` (`csv.DictReader`'s restkey).
Modelled as an insertion-ordered association list with unique keys. -/
abbrev Record := List (Option String × PyVal)

/-- Python `d[k] = v` on a dict: overwrite in place if the key is
present, append otherwise. -/
def recordSet (d : Record) (k : Option String) (v : PyVal) : Record :=
  if d.any (fun kv => decide (kv.1 = k)) then
    d.map (fun kv => if kv.1 = k then (k, v) else kv)
  else
    d ++ [(k, v)]

/-- A Python file object open for reading: the whole data together with
the current read position. -/
structure PyStream (α : Type) where
  data : List α
  pos : Nat
deriving DecidableEq, Repr

/-- Python `fh.read(n)`: return up to `n` items from the current
position and advance the position. -/
def PyStream.read {α : Type} (s : PyStream α) (n : Nat) : List α × PyStream α :=
  ((s.data.drop s.pos).take n,
   { data := s.data, pos := min (s.pos + n) s.data.length })

/-- Python `fh.seek(off)`. -/
def PyStream.seek {α : Type} (s : PyStream α) (off : Nat) : PyStream α :=
  { data := s.data, pos := off }

/-- `sniff_file(fh, length=10, offset=0)` from `wos/read.py`: read
`length` items, then seek to `offset`. -/
def sniff_file {α : Type} (fh : PyStream α) (length offset : Nat) :
    List α × PyStream α :=
  let p := fh.read length
  (p.1, p.2.seek offset)

/-- `codecs.BOM_UTF16` (little-endian native order, as on the platforms
the library targets). -/
def BOM_UTF16 : List Nat := [255, 254]

/-- `codecs.BOM_UTF8`. -/
def BOM_UTF8 : List Nat := [239, 187, 191]

/-- `sniff_encoding(fh)` from `wos/read.py`: sniff the first 10 bytes,
return `'utf-16'` on a UTF-16 byte-order mark, `'utf-8-sig'` on a UTF-8
byte-order mark and `'utf-8'` otherwise.  The two `startswith` tests are
checked in the dict's insertion order (UTF-16 first); the function
returns the resulting stream (position restored to offset 0) alongside,
making the seek observable. -/
def sniff_encoding (fh : PyStream Nat) : String × PyStream Nat :=
  let p := sniff_file fh 10 0
  if BOM_UTF16.isPrefixOf p.1 then ("utf-16", p.2)
  else if BOM_UTF8.isPrefixOf p.1 then ("utf-8-sig", p.2)
  else ("utf-8", p.2)

/-- The two reader classes of `wos/read.py`. -/
inductive ReaderKind where
  | plainText
  | tabDelimited
deriving DecidableEq, Repr

/-- `str.startswith(prefix)`: prefix test, via the character lists (a
structurally recursive equivalent of the library string operation). -/
def strStartsWith (s p : String) : Bool :=
  p.toList.isPrefixOf s.toList

/-- `str.split(sep)` for a one-character separator `c`: the pieces of
`s` between occurrences of `c`, empty pieces included. -/
def splitOnCharGo (c : Char) : List Char -> List Char -> List String
  | [], tok => [String.mk tok.reverse]
  | d :: ds, tok =>
    if d = c then String.mk tok.reverse :: splitOnCharGo c ds []
    else splitOnCharGo c ds (d :: tok)

/-- `str.split(sep)` for a one-character separator. -/
def splitOnChar (c : Char) (s : String) : List String :=
  splitOnCharGo c s.toList []

/-- The worker of `pySplitWs`: gather maximal runs of non-whitespace
characters (`tok` is the current run, reversed). -/
def splitWsGo : List Char -> List Char -> List String
  | [], tok => if tok = [] then [] else [String.mk tok.reverse]
  | c :: cs, tok =>
    if c.isWhitespace then
      if tok = [] then splitWsGo cs []
      else String.mk tok.reverse :: splitWsGo cs []
    else splitWsGo cs (c :: tok)

/-- Python `line.strip()`: remove leading and trailing whitespace. -/
def pyStrip (s : String) : String :=
  String.mk (((s.toList.dropWhile Char.isWhitespace).reverse.dropWhile
    Char.isWhitespace).reverse)

/-- Python `sep.join(values)`. -/
def joinWith (sep : String) : List String -> String
  | [] => ""
  | [x] => x
  | x :: y :: xs => x ++ sep ++ joinWith sep (y :: xs)

/-- `get_reader(fh)` from `wos/read.py`: sniff the first 10 characters
of the decoded stream; `'FN '` prefix selects the plain-text reader, an
embedded tab selects the tab-delimited reader, anything else raises
`ReadError`.  (The Python message interpolates `repr(fh)`; the model
keeps the fixed message text.) -/
def get_reader (fh : PyStream Char) : Except PyError ReaderKind × PyStream Char :=
  let p := sniff_file fh 10 0
  let sniff : String := String.mk p.1
  if strStartsWith sniff "FN " then (.ok .plainText, p.2)
  else if sniff.toList.contains '\t' then (.ok .tabDelimited, p.2)
  else (.error (.readError "Could not determine appropriate reader for file"), p.2)

/-- Stated from the spec's words for claim C4 (format-sniffer decision
rule on the sniffed prefix), to be compared with `get_reader`. -/
def getReaderSpec (content : List Char) : Except PyError ReaderKind :=
  let sniffed : String := String.mk (content.take 10)
  if strStartsWith sniffed "FN " then .ok .plainText
  else if sniffed.toList.contains '\t' then .ok .tabDelimited
  else .error (.readError "Could not determine appropriate reader for file")

/-- Stated from the spec's words for claim C5 (encoding-sniffer decision
rule: UTF-16 byte-order mark, then UTF-8 byte-order mark, then plain
UTF-8), to be compared with `sniff_encoding`. -/
def sniffEncodingSpec (bs : List Nat) : String :=
  if BOM_UTF16.isPrefixOf bs then "utf-16"
  else if BOM_UTF8.isPrefixOf bs then "utf-8-sig"
  else "utf-8"

/-! ## Plain text reader -/

/-- Python `line.rstrip("\n")`: remove all trailing newline characters. -/
def rstripNl (s : String) : String :=
  String.mk ((s.toList.reverse.dropWhile (fun c => c = '\n')).reverse)

/-- Python `line.split()` (split on whitespace runs, no empty pieces). -/
def pySplitWs (s : String) : List String :=
  splitWsGo s.toList []

/-- Python `line.split(None, 1)` followed by unpacking into exactly two
variables: strip leading whitespace, take the first whitespace-delimited
token, skip the following whitespace run; `Option.none` when fewer than
two parts result (Python would raise `ValueError` on unpacking). -/
def pySplit1 (s : String) : Option (String × String) :=
  let cs := s.toList.dropWhile Char.isWhitespace
  let tok := cs.takeWhile (fun c => ¬ c.isWhitespace)
  let rest := (cs.dropWhile (fun c => ¬ c.isWhitespace)).dropWhile Char.isWhitespace
  if tok = [] ∨ rest = [] then Option.none
  else some (String.mk tok, String.mk rest)

/-- State of a `PlainTextReader` object: the not-yet-consumed lines of
the underlying text stream (each line already without its trailing
newline, as Python file iteration plus the reader's own
`rstrip("\n")` produces), the `subdelimiter` argument and the
`current_line` counter. -/
structure PlainTextReader where
  lines : List String
  subdelimiter : String
  current_line : Nat
deriving DecidableEq, Repr

/-- `PlainTextReader._next_nonempty_line` (with `_next_line` inlined):
skip empty lines, incrementing `current_line` once per raw line
consumed; `current_line` is incremented even on the attempt that hits
the end of the stream, exactly as `_next_line` does before `next(fh)`
raises `StopIteration`.  Returns the line, the remaining stream and the
updated counter. -/
def nextNonEmptyLine : List String → Nat → Except PyError String × List String × Nat
  | [], cur => (.error .stopIteration, [], cur + 1)
  | l :: ls, cur =>
    let l' := rstripNl l
    if l' = "" then nextNonEmptyLine ls (cur + 1)
    else (.ok l', ls, cur + 1)

/-- The message of the `ReadError` raised when the stream ends before an
`EF` marker. -/
def eofErrorMsg : String := "Encountered EOF before 'EF' marker"

/-- The message of the `ReadError` raised when an `EF` marker is found
mid-record; `n` is `self.current_line` at the raise site. -/
def efErrorMsg (n : Nat) : String :=
  s!"Encountered unexpected end of file marker EF on line {n}"

/-- The loop body of `PlainTextReader._next_record_lines`, with
`_next_nonempty_line` inlined so the recursion is structural on the
stream.  `acc` is the `lines` list being gathered.  Mirrors the source:
end of stream raises `ReadError(eofErrorMsg)`; a line starting `EF`
raises `ReadError(efErrorMsg current_line)` if `acc` is non-empty and
`StopIteration` (clean end of sequence) otherwise; a line starting `ER`
returns the gathered lines; any other non-empty line is appended. -/
def nextRecordLinesAux : List String → Nat → List String →
    Except PyError (List String) × List String × Nat
  | [], cur, _acc => (.error (.readError eofErrorMsg), [], cur + 1)
  | l :: ls, cur, acc =>
    let l' := rstripNl l
    let n := cur + 1
    if l' = "" then nextRecordLinesAux ls n acc
    else if strStartsWith l' "EF" then
      if acc ≠ [] then (.error (.readError (efErrorMsg n)), ls, n)
      else (.error .stopIteration, ls, n)
    else if strStartsWith l' "ER" then (.ok acc, ls, n)
    else nextRecordLinesAux ls n (acc ++ [l'])

/-- `PlainTextReader._next_record_lines`, acting on the reader state. -/
def nextRecordLines (r : PlainTextReader) :
    Except PyError (List String) × PlainTextReader :=
  let t := nextRecordLinesAux r.lines r.current_line []
  (t.1, { lines := t.2.1, subdelimiter := r.subdelimiter, current_line := t.2.2 })

/-- `PlainTextReader.__init__`: consume the `FN` line and the `VR` line,
checking both eagerly.  `line.split()` unpacked into `label, version`
raises `ValueError` unless it yields exactly two tokens; a wrong label
or a version different from the expected `"1.0"` raises `ReadError`. -/
def mkPlainTextReader (lines : List String) (subdelimiter : String) :
    Except PyError PlainTextReader :=
  match nextNonEmptyLine lines 0 with
  | (.error e, _, _) => .error e
  | (.ok l1, ls1, n1) =>
    if ¬ strStartsWith l1 "FN" then .error (.readError "Unknown file format")
    else
      match nextNonEmptyLine ls1 n1 with
      | (.error e, _, _) => .error e
      | (.ok l2, ls2, n2) =>
        match pySplitWs l2 with
        | [label, version] =>
          if label ≠ "VR" ∨ version ≠ "1.0" then
            .error (.readError s!"Unknown version: expected 1.0 but got {version}")
          else
            .ok { lines := ls2, subdelimiter := subdelimiter, current_line := n2 }
        | _ => .error .valueError

/-- `PlainTextReader._format_values`: look the heading up in the
field-classification table `has_item_per_line` (an unguarded dict
lookup: an absent key is a `KeyError`), then join the collected chunks
with the subdelimiter (list-like field) or a single space. -/
def formatValues (tbl : String → Option Bool) (subdelimiter heading : String)
    (values : List String) : Except PyError String :=
  match tbl heading with
  | Option.none => .error .keyError
  | some true => .ok (joinWith subdelimiter values)
  | some false => .ok (joinWith " " values)

/-- The field-parsing loop of `PlainTextReader.next` over the gathered
record lines, carrying the open `heading`, its collected `values` and
the record built so far.  A line not starting with two spaces opens a
new field: the previous field is committed first (guarded by
`if heading:`), then the line is split into heading and first chunk
(`ValueError` if it has no second part).  A continuation line appends
its stripped content to `values`.  After the last line the trailing
open field is committed unconditionally. -/
def parseGo (tbl : String → Option Bool) (subdelimiter : String) :
    List String → String → List String → Record → Except PyError Record
  | [], heading, values, record =>
    (formatValues tbl subdelimiter heading values).bind
      (fun v => .ok (recordSet record (some heading) (.str v)))
  | line :: rest, heading, values, record =>
    if ¬ strStartsWith line "  " then
      (if heading ≠ "" then
        (formatValues tbl subdelimiter heading values).bind
          (fun v => .ok (recordSet record (some heading) (.str v)))
      else .ok record).bind
        (fun record' =>
          match pySplit1 line with
          | some hv => parseGo tbl subdelimiter rest hv.1 [hv.2] record'
          | Option.none => .error .valueError)
    else parseGo tbl subdelimiter rest heading (values ++ [pyStrip line]) record

/-- The record-parsing phase of `PlainTextReader.next`: run `parseGo`
from the initial `record = {}`, `values = []`, `heading = ""`. -/
def parseRecord (tbl : String → Option Bool) (subdelimiter : String)
    (lines : List String) : Except PyError Record :=
  parseGo tbl subdelimiter lines "" [] []

/-- `PlainTextReader.next`: gather one record's lines, then parse them.
Errors from `_next_record_lines` propagate; the returned reader state
reflects the lines consumed. -/
def PlainTextReader.next (tbl : String → Option Bool) (r : PlainTextReader) :
    Except PyError Record × PlainTextReader :=
  let t := nextRecordLines r
  match t.1 with
  | .error e => (.error e, t.2)
  | .ok lines => (parseRecord tbl r.subdelimiter lines, t.2)

/-! ## Tab-delimited reader -/

/-- One raw csv row: the cells of a line split on the tab delimiter; a
blank line yields the empty row, which `csv.DictReader` skips.
(Quoting, which the WoS tab-delimited grammar does not use, is not
modelled; no claim depends on cell contents beyond tab splitting.) -/
def csvCells (line : String) : List String :=
  if line = "" then [] else splitOnChar '\t' line

/-- State of a `TabDelimitedReader` object: the header row (the
`fieldnames` that `csv.DictReader` takes from the first row of the
stream) and the remaining data rows. -/
structure TabDelimitedReader where
  fieldnames : List String
  rows : List (List String)
deriving DecidableEq, Repr

/-- `TabDelimitedReader.__init__`: wrap the stream in a
`csv.DictReader` with tab delimiter; the first row becomes the
fieldnames (an empty stream leaves no fieldnames and no rows). -/
def mkTabDelimitedReader (lines : List String) : TabDelimitedReader :=
  match lines.map csvCells with
  | [] => { fieldnames := [], rows := [] }
  | r :: rs => { fieldnames := r, rows := rs }

/-- `csv.DictReader.__next__` (the generic delimited-text engine, from
the Python standard library, external to this repository): skip empty
rows, then zip fieldnames with the row's cells; extra cells are gathered
in a list under the `restkey` `None` (modelled as the key
`Option.none`), missing cells get the `restval` `None` (modelled as
`PyVal.null`). -/
def dictReaderNext (fieldnames : List String) :
    List (List String) → Except PyError Record × List (List String)
  | [] => (.error .stopIteration, [])
  | row :: rs =>
    if row = [] then dictReaderNext fieldnames rs
    else
      let d : Record :=
        (fieldnames.zip row).foldl (fun d p => recordSet d (some p.1) (.str p.2)) []
      let lf := fieldnames.length
      let lr := row.length
      let d :=
        if lf < lr then recordSet d Option.none (.strs (row.drop lf))
        else if lf > lr then
          (fieldnames.drop lr).foldl (fun d k => recordSet d (some k) .null) d
        else d
      (.ok d, rs)

/-- `TabDelimitedReader.next`: take the next row from the `DictReader`
and delete the spurious `None` key (the ghost column caused by the
trailing tab) if present; its absence is not an error
(`try: del record[None] except KeyError: pass`). -/
def TabDelimitedReader.next (r : TabDelimitedReader) :
    Except PyError Record × TabDelimitedReader :=
  let t := dictReaderNext r.fieldnames r.rows
  match t.1 with
  | .ok record =>
    (.ok (record.filter (fun kv => kv.1.isSome)),
     { fieldnames := r.fieldnames, rows := t.2 })
  | .error e => (.error e, { fieldnames := r.fieldnames, rows := t.2 })

/-! ## Driving a reader to exhaustion

Python's `for record in reader` pulls records until `StopIteration`;
any other exception propagates to the consumer.  The drain functions
return the records yielded, `Option.none` for a clean end of sequence or
`some e` for an error `e` that escaped, and the final reader state. -/

/-- Drive a `PlainTextReader` to its end, as `for record in reader`
does. -/
def drainPlain (tbl : String → Option Bool) (r : PlainTextReader) :
    List Record × Option PyError × PlainTextReader :=
  match h : PlainTextReader.next tbl r with
  | (.ok rec, r') =>
    let t := drainPlain tbl r'
    (rec :: t.1, t.2)
  | (.error .stopIteration, r') => ([], Option.none, r')
  | (.error (.readError m), r') => ([], some (.readError m), r')
  | (.error .valueError, r') => ([], some .valueError, r')
  | (.error .keyError, r') => ([], some .keyError, r')
termination_by r.lines.length
decreasing_by
  have Haux : ∀ (lines : List String) (cur : Nat) (acc got rest : List String)
      (n : Nat), nextRecordLinesAux lines cur acc = (.ok got, rest, n) →
      rest.length < lines.length := by
    intro lines
    induction lines with
    | nil => intro cur acc got rest n hh; simp [nextRecordLinesAux] at hh
    | cons l ls ih =>
      intro cur acc got rest n hh
      unfold nextRecordLinesAux at hh
      simp only [] at hh
      split at hh
      · exact Nat.lt_trans (ih _ _ _ _ _ hh) (Nat.lt_succ_self _)
      · split at hh
        · split at hh <;> simp at hh
        · split at hh
          · injection hh with h1 h2
            injection h2 with h2a h2b
            subst h2a
            exact Nat.lt_succ_self _
          · exact Nat.lt_trans (ih _ _ _ _ _ hh) (Nat.lt_succ_self _)
  unfold PlainTextReader.next nextRecordLines at h
  rcases haux : nextRecordLinesAux r.lines r.current_line [] with ⟨res, rest, n⟩
  rw [haux] at h
  cases res with
  | error e => simp at h
  | ok got =>
    simp only [] at h
    injection h with h1 h2
    subst h2
    exact Haux _ _ _ _ _ _ haux

/-- Drive a `TabDelimitedReader` to its end, as `for record in reader`
does. -/
def drainTab (r : TabDelimitedReader) :
    List Record × Option PyError × TabDelimitedReader :=
  match h : TabDelimitedReader.next r with
  | (.ok rec, r') =>
    let t := drainTab r'
    (rec :: t.1, t.2)
  | (.error .stopIteration, r') => ([], Option.none, r')
  | (.error (.readError m), r') => ([], some (.readError m), r')
  | (.error .valueError, r') => ([], some .valueError, r')
  | (.error .keyError, r') => ([], some .keyError, r')
termination_by r.rows.length
decreasing_by
  have Haux : ∀ (rows : List (List String)) (rec : Record)
      (rest : List (List String)),
      dictReaderNext r.fieldnames rows = (.ok rec, rest) →
      rest.length < rows.length := by
    intro rows
    induction rows with
    | nil => intro rec rest hh; simp [dictReaderNext] at hh
    | cons row rs ih =>
      intro rec rest hh
      unfold dictReaderNext at hh
      split at hh
      · exact Nat.lt_trans (ih _ _ hh) (Nat.lt_succ_self _)
      · simp only [] at hh
        injection hh with h1 h2
        subst h2
        exact Nat.lt_succ_self _
  unfold TabDelimitedReader.next at h
  rcases haux : dictReaderNext r.fieldnames r.rows with ⟨res, rest⟩
  rw [haux] at h
  cases res with
  | error e => simp at h
  | ok got =>
    simp only [] at h
    injection h with h1 h2
    subst h2
    exact Haux _ _ _ haux

/-! ## The record-stream driver `read` -/

/-- Python text-file iteration over decoded content: the lines of the
text, without their trailing newline (the plain-text reader strips it
again via `rstrip`, the csv engine strips it itself, so dropping it
here loses nothing). -/
def pyLines (s : String) : List String :=
  if s = "" then []
  else
    let ls := splitOnChar '\n' s
    if ls.getLast? = some "" then ls.dropLast else ls

/-- The bytes of an ASCII string, for building concrete test files. -/
def asciiBytes (s : String) : List Nat := s.toList.map Char.toNat

/-- Decode a little-endian UTF-16 code-unit stream, pairing bytes.
Characters outside the Basic Multilingual Plane are out of scope. -/
def utf16leChars : List Nat → List Char
  | lo :: hi :: rest => Char.ofNat (lo + 256 * hi) :: utf16leChars rest
  | [lo] => [Char.ofNat lo]
  | [] => []

/-- Decode a big-endian UTF-16 code-unit stream, pairing bytes. -/
def utf16beChars : List Nat → List Char
  | hi :: lo :: rest => Char.ofNat (lo + 256 * hi) :: utf16beChars rest
  | [hi] => [Char.ofNat hi]
  | [] => []

/-- Modelled from the spec: the Python codec layer (`open(..., 'rt',
encoding=...)`), which is outside this repository.  Exact for the ASCII
payloads the WoS grammar's markers require: `utf-8` maps each byte below
128 to its character (other bytes become U+FFFD; multi-byte sequences
and decode errors are out of scope), `utf-8-sig` additionally strips a
leading UTF-8 byte-order mark, and `utf-16` strips a byte-order mark
(defaulting to little-endian without one) and pairs bytes into code
units. -/
def pyDecode (enc : String) (bs : List Nat) : String :=
  if enc = "utf-16" then
    if BOM_UTF16.isPrefixOf bs then String.mk (utf16leChars (bs.drop 2))
    else if [254, 255].isPrefixOf bs then String.mk (utf16beChars (bs.drop 2))
    else String.mk (utf16leChars bs)
  else
    let body := if enc = "utf-8-sig" ∧ BOM_UTF8.isPrefixOf bs then bs.drop 3 else bs
    String.mk (body.map (fun b => if b < 128 then Char.ofNat b else '�'))

/-- The keyword arguments of `wos.read`: the `using` reader override,
the `encoding` override, and the reader-specific passthrough options
(`subdelimiter` being the plain-text reader's only one). -/
structure ReadArgs where
  usingReader : Option ReaderKind
  encoding : Option String
  subdelimiter : Option String
deriving DecidableEq, Repr

/-- The defaults of `wos.read`'s keyword arguments: `using=None`,
`encoding=None`, no passthrough options. -/
def defaultReadArgs : ReadArgs :=
  { usingReader := Option.none, encoding := Option.none, subdelimiter := Option.none }

/-- The single-file branch of `wos.read`: sniff the encoding unless
overridden, decode, sniff the format unless overridden, construct the
chosen reader (passing the passthrough options) and yield its records.
The filesystem is `fs : String → List Nat` (file name to bytes). -/
def readSingle (tbl : String → Option Bool) (fs : String → List Nat)
    (fname : String) (args : ReadArgs) : List Record × Option PyError :=
  let encoding :=
    match args.encoding with
    | some e => e
    | Option.none => (sniff_encoding { data := fs fname, pos := 0 }).1
  let text := pyDecode encoding (fs fname)
  let readerK : Except PyError ReaderKind :=
    match args.usingReader with
    | some k => .ok k
    | Option.none => (get_reader { data := text.toList, pos := 0 }).1
  match readerK with
  | .error e => ([], some e)
  | .ok ReaderKind.plainText =>
    match mkPlainTextReader (pyLines text) (args.subdelimiter.getD "; ") with
    | .error e => ([], some e)
    | .ok r =>
      let t := drainPlain tbl r
      (t.1, t.2.1)
  | .ok ReaderKind.tabDelimited =>
    let t := drainTab (mkTabDelimitedReader (pyLines text))
    (t.1, t.2.1)

/-- The multiple-file branch of `wos.read`:
`for actual_fname in fname: for record in read(actual_fname): yield record`.
Note the recursive call `read(actual_fname)` passes neither `using` nor
`encoding` nor the keyword options: each source is read with the
defaults.  An error raised for one source ends the whole sequence. -/
def readMany (tbl : String → Option Bool) (fs : String → List Nat) :
    List String → List Record × Option PyError
  | [] => ([], Option.none)
  | f :: rest =>
    let t := readSingle tbl fs f defaultReadArgs
    match t.2 with
    | some e => (t.1, some e)
    | Option.none =>
      let u := readMany tbl fs rest
      (t.1 ++ u.1, u.2)

/-- The `fname` argument of `wos.read`: a single file name or a list of
file names. -/
inductive FName where
  | str (s : String)
  | list (l : List String)

/-- `wos.read`: dispatch on whether `fname` is a string. -/
def read (tbl : String → Option Bool) (fs : String → List Nat) :
    FName → ReadArgs → List Record × Option PyError
  | FName.str s, args => readSingle tbl fs s args
  | FName.list l, _args => readMany tbl fs l

/-- Concatenation of two lazy record sequences, each given as the
records yielded plus how the sequence ended: the second sequence is
reached only if the first ended cleanly. -/
def seqAppend (p q : List Record × Option PyError) :
    List Record × Option PyError :=
  match p.2 with
  | some e => (p.1, some e)
  | Option.none => (p.1 ++ q.1, q.2)

/-- A concrete field-classification table for witnesses: `AU` is the
only field code present and it is list-like (one item per line), as in
the shipped `wos.tags.has_item_per_line` table. -/
def tblAU : String → Option Bool :=
  fun s => if s = "AU" then some true else Option.none

/-- Whether a result is the library's `ReadError` (the malformed-input
/ format error kind), as opposed to a success or to some other
exception. -/
def isReadErrorB {α : Type} : Except PyError α → Bool
  | .error (.readError _) => true
  | _ => false

/-- The key `k` was opened by a new-field line of `lines`: some line
does not start with two spaces and splits into a heading equal to `k`
plus a first value chunk. -/
def OpenedBy (lines : List String) (k : Option String) : Prop :=
  ∃ l ∈ lines, strStartsWith l "  " = false ∧
    ∃ hv : String × String, pySplit1 l = some hv ∧ k = some hv.1

/-- A one-file filesystem whose only content is a minimal plain-text
export (its sniffed prefix is `FN `, so the format sniffer always picks
the plain-text reader). -/
def fsPlainFile : String → List Nat :=
  fun _ => asciiBytes "FN X\nVR 1.0\nAU a\nER\nEF\n"

/-- `read` arguments with an explicit reader override
(`using=TabDelimitedReader`). -/
def argsTab : ReadArgs :=
  { usingReader := some ReaderKind.tabDelimited, encoding := Option.none,
    subdelimiter := Option.none }


/-! ## Helper lemmas -/

theorem isPrefixOf_take {α : Type} [BEq α] (l : List α) :
    ∀ (n : Nat) (bs : List α), l.length ≤ n →
      l.isPrefixOf (bs.take n) = l.isPrefixOf bs := by
  induction l with
  | nil => intro n bs _; simp [List.isPrefixOf]
  | cons a l' ih =>
    intro n bs h
    cases bs with
    | nil => simp
    | cons b bs' =>
      cases n with
      | zero => simp at h
      | succ m =>
        simp only [List.take_succ_cons, List.isPrefixOf]
        rw [ih m bs' (Nat.le_of_succ_le_succ h)]

/-! ## Claim C4: format sniffer -/

/-- Claim C4: for every sniffed prefix of a text stream at offset 0, a
`FN ` prefix selects the plain-text reader; otherwise a tab character in
the prefix selects the tab-delimited reader; otherwise (including the
empty input) a `ReadError` is raised; and the stream position is
restored after peeking.  Stated as: `get_reader` equals the
claim-worded `getReaderSpec` and returns the stream with its position
restored to the original offset 0. -/
theorem get_reader_matches_sniffer_spec (cs : List Char) :
    get_reader { data := cs, pos := 0 }
      = (getReaderSpec cs, { data := cs, pos := 0 }) := by
  unfold get_reader getReaderSpec sniff_file PyStream.read PyStream.seek
  simp only [List.drop_zero]
  split
  · rfl
  · split
    · rfl
    · rfl

/-! ## Claim C5: encoding sniffer -/

/-- Claim C5: for every binary input positioned at offset 0, the
encoding sniffer returns `utf-16` when the prefix starts with the
UTF-16 byte-order mark, `utf-8-sig` when it starts with the UTF-8
byte-order mark, and `utf-8` otherwise; it is a total function (it
cannot raise, in particular not on empty input) and it returns the
stream with its position back at the original offset 0. -/
theorem sniff_encoding_matches_spec (bs : List Nat) :
    sniff_encoding { data := bs, pos := 0 }
      = (sniffEncodingSpec bs, { data := bs, pos := 0 }) := by
  unfold sniff_encoding sniffEncodingSpec sniff_file PyStream.read PyStream.seek
  simp only [List.drop_zero]
  rw [isPrefixOf_take BOM_UTF16 10 bs (by simp [BOM_UTF16]),
      isPrefixOf_take BOM_UTF8 10 bs (by simp [BOM_UTF8])]
  split
  · rfl
  · split
    · rfl
    · rfl

/-! ## Unfolding lemmas for the drain functions -/

theorem drainPlain_next_ok {tbl : String → Option Bool} {r : PlainTextReader}
    {rec : Record} {r' : PlainTextReader}
    (h : PlainTextReader.next tbl r = (.ok rec, r')) :
    drainPlain tbl r = (rec :: (drainPlain tbl r').1, (drainPlain tbl r').2) := by
  conv_lhs => rw [drainPlain]
  split
  · rename_i rec2 r2 heq
    rw [h] at heq
    injection heq with heq1 heq2
    injection heq1 with heq1
    subst heq1; subst heq2
    rfl
  all_goals (rename_i heq; rw [h] at heq; exact absurd (congrArg Prod.fst heq) (by simp))

theorem drainPlain_next_stop {tbl : String → Option Bool} {r : PlainTextReader}
    {r' : PlainTextReader}
    (h : PlainTextReader.next tbl r = (.error .stopIteration, r')) :
    drainPlain tbl r = ([], Option.none, r') := by
  conv_lhs => rw [drainPlain]
  split
  all_goals (rename_i heq; rw [h] at heq)
  · exact absurd (congrArg Prod.fst heq) (by simp)
  · injection heq with heq1 heq2
    subst heq2
    rfl
  all_goals
    exact absurd (congrArg Prod.fst heq) (by intro hc; injection hc with hc; injection hc)

theorem drainPlain_next_readErr {tbl : String → Option Bool} {r : PlainTextReader}
    {m : String} {r' : PlainTextReader}
    (h : PlainTextReader.next tbl r = (.error (.readError m), r')) :
    drainPlain tbl r = ([], some (.readError m), r') := by
  conv_lhs => rw [drainPlain]
  split
  all_goals (rename_i heq; rw [h] at heq)
  · exact absurd (congrArg Prod.fst heq) (by simp)
  · exact absurd (congrArg Prod.fst heq) (by intro hc; injection hc with hc; injection hc)
  · rename_i m2 r2
    injection heq with heq1 heq2
    injection heq1 with heq1
    injection heq1 with heq1
    subst heq1; subst heq2
    rfl
  all_goals
    exact absurd (congrArg Prod.fst heq) (by intro hc; injection hc with hc; injection hc)

theorem drainTab_next_ok {r : TabDelimitedReader} {rec : Record}
    {r' : TabDelimitedReader}
    (h : TabDelimitedReader.next r = (.ok rec, r')) :
    drainTab r = (rec :: (drainTab r').1, (drainTab r').2) := by
  conv_lhs => rw [drainTab]
  split
  · rename_i rec2 r2 heq
    rw [h] at heq
    injection heq with heq1 heq2
    injection heq1 with heq1
    subst heq1; subst heq2
    rfl
  all_goals (rename_i heq; rw [h] at heq; exact absurd (congrArg Prod.fst heq) (by simp))

theorem drainTab_next_stop {r : TabDelimitedReader} {r' : TabDelimitedReader}
    (h : TabDelimitedReader.next r = (.error .stopIteration, r')) :
    drainTab r = ([], Option.none, r') := by
  conv_lhs => rw [drainTab]
  split
  all_goals (rename_i heq; rw [h] at heq)
  · exact absurd (congrArg Prod.fst heq) (by simp)
  · injection heq with heq1 heq2
    subst heq2
    rfl
  all_goals
    exact absurd (congrArg Prod.fst heq) (by intro hc; injection hc with hc; injection hc)

/-! ## Claim C7: multi-source read is concatenation -/

/-- Claim C7: for every ordered pair of sources `[a, b]`, the
multi-source read yields exactly the sequence of all of `a`'s records in
`a`'s order followed by all of `b`'s records in `b`'s order, with no
interleaving: `read` over the pair equals the concatenation
(`seqAppend`) of the per-source reads.  (The per-source reads are with
default arguments, which is what the multi-source branch performs.) -/
theorem read_pair_concatenation (tbl : String → Option Bool)
    (fs : String → List Nat) (a b : String) :
    read tbl fs (FName.list [a, b]) defaultReadArgs =
      seqAppend (read tbl fs (FName.str a) defaultReadArgs)
                (read tbl fs (FName.str b) defaultReadArgs) := by
  have key : ∀ (f : String) (rest : List String),
      readMany tbl fs (f :: rest)
        = seqAppend (readSingle tbl fs f defaultReadArgs)
            (readMany tbl fs rest) := by
    intro f rest
    rcases hf : readSingle tbl fs f defaultReadArgs with ⟨rf, ef⟩
    simp only [readMany, hf, seqAppend]
  show readMany tbl fs [a, b] = seqAppend (readSingle tbl fs a defaultReadArgs)
    (readSingle tbl fs b defaultReadArgs)
  rw [key a [b], key b []]
  rcases ha : readSingle tbl fs a defaultReadArgs with ⟨ra, ea⟩
  rcases hb : readSingle tbl fs b defaultReadArgs with ⟨rb, eb⟩
  simp only [readMany, seqAppend]
  cases ea <;> cases eb <;> simp

/-! ## Claim C9: no null key in tab-delimited records -/

/-- Claim C9: every record produced by the tab-delimited reader
contains no `None` key: the spurious column a trailing tab creates is
deleted if present, and the read succeeds whether or not that key was
present. -/
theorem tab_records_no_null_key (r : TabDelimitedReader) (rec : Record)
    (r' : TabDelimitedReader)
    (h : TabDelimitedReader.next r = (.ok rec, r'))
    (kv : Option String × PyVal) (hkv : kv ∈ rec) : kv.1 ≠ Option.none := by
  unfold TabDelimitedReader.next at h
  rcases haux : dictReaderNext r.fieldnames r.rows with ⟨res, rest⟩
  rw [haux] at h
  cases res with
  | error e => simp at h
  | ok d =>
    simp only [] at h
    injection h with h1 h2
    injection h1 with h1
    subst h1
    have := (List.mem_filter.mp hkv).2
    exact Option.isSome_iff_ne_none.mp this

/-- Witness for C9 at a concrete input: the header `PT\tAU` with the
data row `J\ta\t` (trailing tab) produces a record whose ghost extra
column was deleted, so the `None` key is absent. -/
theorem tab_records_no_null_key_witness :
    ((Option.none : Option String), PyVal.strs [""]) ∉
      ([(some "PT", PyVal.str "J"), (some "AU", PyVal.str "a")] : Record) :=
  fun hmem =>
    tab_records_no_null_key
      { fieldnames := ["PT", "AU"], rows := [["J", "a", ""]] }
      [(some "PT", PyVal.str "J"), (some "AU", PyVal.str "a")]
      { fieldnames := ["PT", "AU"], rows := [] }
      (by decide) (Option.none, PyVal.strs [""]) hmem rfl

/-! ## Claim C2: reading past exhaustion -/

/-- Counterexample to claim C2 as stated: after the plain-text reader on
a minimal valid file signals clean end of sequence (`StopIteration` on
the second call), a further call does not silently yield nothing: it
raises the `ReadError` "Encountered EOF before 'EF' marker". -/
theorem plaintext_read_past_exhaustion_raises :
    mkPlainTextReader ["FN X", "VR 1.0", "AU John Doe", "  Jane Roe", "ER", "EF"] "; "
      = .ok { lines := ["AU John Doe", "  Jane Roe", "ER", "EF"],
              subdelimiter := "; ", current_line := 2 }
    ∧ PlainTextReader.next tblAU
        { lines := ["AU John Doe", "  Jane Roe", "ER", "EF"],
          subdelimiter := "; ", current_line := 2 }
      = (.ok [(some "AU", PyVal.str "John Doe; Jane Roe")],
         { lines := ["EF"], subdelimiter := "; ", current_line := 5 })
    ∧ PlainTextReader.next tblAU
        { lines := ["EF"], subdelimiter := "; ", current_line := 5 }
      = (.error .stopIteration,
         { lines := [], subdelimiter := "; ", current_line := 6 })
    ∧ PlainTextReader.next tblAU
        { lines := [], subdelimiter := "; ", current_line := 6 }
      = (.error (.readError eofErrorMsg),
         { lines := [], subdelimiter := "; ", current_line := 7 }) := by
  refine ⟨?_, ?_, ?_, ?_⟩ <;> decide

/-- Claim C2 (amended): once the tab-delimited reader has signalled end
of sequence, every further call signals end of sequence again and no
error is ever raised (its only non-success outcome is `StopIteration`);
the plain-text reader, by contrast, raises the `ReadError`
"Encountered EOF before 'EF' marker" on a further call once its stream
is exhausted, e.g. immediately after the clean end-of-sequence signal
when `EF` was the last line. -/
theorem read_past_exhaustion_amended :
    (∀ (st : TabDelimitedReader) (e : PyError),
        (TabDelimitedReader.next st).1 = .error e → e = .stopIteration)
    ∧ (∀ st : TabDelimitedReader,
        (TabDelimitedReader.next st).1 = .error .stopIteration →
        (TabDelimitedReader.next st).2.rows = []
        ∧ ∀ fns : List String,
          TabDelimitedReader.next { fieldnames := fns, rows := [] }
            = (.error .stopIteration, { fieldnames := fns, rows := [] }))
    ∧ (∀ (tbl : String → Option Bool) (r : PlainTextReader),
        (PlainTextReader.next tbl r).1 = .error .stopIteration →
        (PlainTextReader.next tbl r).2.lines = [] →
        (PlainTextReader.next tbl (PlainTextReader.next tbl r).2).1
          = .error (.readError eofErrorMsg)) := by
  have hdict : ∀ (fns : List String) (rows : List (List String)) (e : PyError)
      (rest : List (List String)), dictReaderNext fns rows = (.error e, rest) →
      e = .stopIteration ∧ rest = [] := by
    intro fns rows
    induction rows with
    | nil =>
      intro e rest h
      unfold dictReaderNext at h
      injection h with h1 h2
      injection h1 with h1
      exact ⟨h1.symm, h2.symm⟩
    | cons row rs ih =>
      intro e rest h
      unfold dictReaderNext at h
      split at h
      · exact ih _ _ h
      · simp only [] at h
        injection h with h1 h2
        exact absurd h1 (by simp)
  refine ⟨?_, ?_, ?_⟩
  · intro st e h
    unfold TabDelimitedReader.next at h
    rcases haux : dictReaderNext st.fieldnames st.rows with ⟨res, rest⟩
    rw [haux] at h
    cases res with
    | ok d => simp at h
    | error e2 =>
      simp only [] at h
      injection h with h1
      exact h1 ▸ (hdict _ _ _ _ haux).1
  · intro st h
    rcases st with ⟨fns, rows⟩
    refine ⟨?_, ?_⟩
    · unfold TabDelimitedReader.next at h ⊢
      rcases haux : dictReaderNext fns rows with ⟨res, rest⟩
      cases res with
      | ok d => rw [haux] at h; simp at h
      | error e2 =>
        have hrest := (hdict _ _ _ _ haux).2
        subst hrest
        rfl
    · intro fns2
      rfl
  · intro tbl r _h1 h2
    have key : ∀ r' : PlainTextReader, r'.lines = [] →
        (PlainTextReader.next tbl r').1 = .error (.readError eofErrorMsg) := by
      intro r' hl
      rcases r' with ⟨ls, sd, c⟩
      simp only at hl
      subst hl
      rfl
    exact key _ h2

/-- Witness for the amended C2: the tab reader with no rows keeps
signalling clean end without error; the plain-text reader positioned at
a final `EF` line signals clean end once and raises the EOF `ReadError`
on the call after that. -/
theorem read_past_exhaustion_amended_witness :
    (PyError.stopIteration = PyError.stopIteration)
    ∧ TabDelimitedReader.next { fieldnames := ["PT"], rows := [] }
        = (.error .stopIteration, { fieldnames := ["PT"], rows := [] })
    ∧ (PlainTextReader.next tblAU
        (PlainTextReader.next tblAU
          { lines := ["EF"], subdelimiter := "; ", current_line := 5 }).2).1
        = .error (.readError eofErrorMsg) :=
  ⟨read_past_exhaustion_amended.1 { fieldnames := ["PT"], rows := [] }
      .stopIteration (by decide),
   ((read_past_exhaustion_amended.2.1 { fieldnames := ["PT"], rows := [] }
      (by decide)).2 ["PT"]),
   read_past_exhaustion_amended.2.2 tblAU
      { lines := ["EF"], subdelimiter := "; ", current_line := 5 }
      (by decide) (by decide)⟩

/-! ## Claim C3: the VR version check -/

/-- Counterexample to claim C3 as stated: the input whose second
non-empty line is `VR` alone (so not the label `VR` followed by
whitespace and the version token `1.0`) makes construction raise
`ValueError` (the failed two-variable unpacking of `line.split()`), not
the `ReadError` format-error kind. -/
theorem vr_line_one_token_valueerror :
    nextNonEmptyLine ["VR"] 1 = (.ok "VR", [], 2)
    ∧ pySplitWs "VR" = ["VR"]
    ∧ mkPlainTextReader ["FN X", "VR"] "; " = .error .valueError
    ∧ isReadErrorB (mkPlainTextReader ["FN X", "VR"] "; ") = false := by
  refine ⟨?_, ?_, ?_, ?_⟩ <;> decide

/-- Claim C3 (amended): for every input stream whose second non-empty
line consists of exactly two whitespace-separated tokens that are not
`VR` and `1.0` respectively, constructing the plain-text reader raises
the malformed-input (`ReadError`) kind at construction time, before any
record is produced; this covers both a wrong label and a wrong version
token.  (A second line with any other number of tokens raises
`ValueError` instead, per the counterexample.) -/
theorem vr_mismatch_readerror_amended (lines : List String) (sd l1 l2 : String)
    (s1 s2 : List String) (n1 n2 : Nat) (label version : String)
    (h1 : nextNonEmptyLine lines 0 = (.ok l1, s1, n1))
    (h2 : nextNonEmptyLine s1 n1 = (.ok l2, s2, n2))
    (hsplit : pySplitWs l2 = [label, version])
    (hbad : label ≠ "VR" ∨ version ≠ "1.0") :
    isReadErrorB (mkPlainTextReader lines sd) = true := by
  by_cases hfn : strStartsWith l1 "FN" = true
  · simp [mkPlainTextReader, h1, h2, hsplit, hfn]
    split
    · rfl
    · rename_i hcond
      exact absurd hbad hcond
  · simp [mkPlainTextReader, h1, hfn, isReadErrorB]

/-- Witness for the amended C3 at a concrete input: second line
`VR 2.0` (right label, wrong version) raises the format error at
construction. -/
theorem vr_mismatch_readerror_amended_witness :
    isReadErrorB (mkPlainTextReader ["FN X", "VR 2.0"] "; ") = true :=
  vr_mismatch_readerror_amended ["FN X", "VR 2.0"] "; " "FN X" "VR 2.0"
    ["VR 2.0"] [] 1 2 "VR" "2.0" (by decide) (by decide) (by decide)
    (Or.inr (by decide))

/-! ## Claim C1: the minimal round-trip -/

/-- Claim C1: for the plain-text input `FN X / VR 1.0 / AU John Doe /
(two spaces)Jane Roe / ER / EF`, with field code `AU` classified as
list-like in the classification table and the default sub-delimiter
`"; "`, construction succeeds and the reader yields exactly one record,
the mapping `AU ↦ "John Doe; Jane Roe"`, and then signals clean end of
sequence (the drained error component is `Option.none`). -/
theorem plaintext_roundtrip_minimal (tbl : String → Option Bool)
    (h : tbl "AU" = some true) :
    mkPlainTextReader ["FN X", "VR 1.0", "AU John Doe", "  Jane Roe", "ER", "EF"] "; "
      = .ok { lines := ["AU John Doe", "  Jane Roe", "ER", "EF"],
              subdelimiter := "; ", current_line := 2 }
    ∧ drainPlain tbl { lines := ["AU John Doe", "  Jane Roe", "ER", "EF"],
                       subdelimiter := "; ", current_line := 2 }
      = ([[(some "AU", PyVal.str "John Doe; Jane Roe")]], Option.none,
         { lines := [], subdelimiter := "; ", current_line := 6 }) := by
  constructor
  · decide
  · have hfv : formatValues tbl "; " "AU" ["John Doe", "Jane Roe"]
        = .ok "John Doe; Jane Roe" := by
      unfold formatValues
      rw [h]
      rfl
    have hp : parseRecord tbl "; " ["AU John Doe", "  Jane Roe"]
        = (formatValues tbl "; " "AU" ["John Doe", "Jane Roe"]).bind
            (fun v => .ok (recordSet [] (some "AU") (.str v))) := rfl
    have hn1 : PlainTextReader.next tbl
        { lines := ["AU John Doe", "  Jane Roe", "ER", "EF"],
          subdelimiter := "; ", current_line := 2 }
        = (.ok [(some "AU", PyVal.str "John Doe; Jane Roe")],
           { lines := ["EF"], subdelimiter := "; ", current_line := 5 }) := by
      show (parseRecord tbl "; " ["AU John Doe", "  Jane Roe"],
            ({ lines := ["EF"], subdelimiter := "; ",
               current_line := 5 } : PlainTextReader)) = _
      rw [hp, hfv]
      rfl
    have hn2 : PlainTextReader.next tbl
        { lines := ["EF"], subdelimiter := "; ", current_line := 5 }
        = (.error .stopIteration,
           { lines := [], subdelimiter := "; ", current_line := 6 }) := rfl
    rw [drainPlain_next_ok hn1, drainPlain_next_stop hn2]

/-- Witness for C1 with the concrete table `tblAU` (in which `AU` is
list-like). -/
theorem plaintext_roundtrip_minimal_witness :
    tblAU "AU" = some true
    ∧ mkPlainTextReader ["FN X", "VR 1.0", "AU John Doe", "  Jane Roe", "ER", "EF"] "; "
        = .ok { lines := ["AU John Doe", "  Jane Roe", "ER", "EF"],
                subdelimiter := "; ", current_line := 2 }
    ∧ drainPlain tblAU { lines := ["AU John Doe", "  Jane Roe", "ER", "EF"],
                         subdelimiter := "; ", current_line := 2 }
        = ([[(some "AU", PyVal.str "John Doe; Jane Roe")]], Option.none,
           { lines := [], subdelimiter := "; ", current_line := 6 }) :=
  ⟨rfl, (plaintext_roundtrip_minimal tblAU rfl).1,
   (plaintext_roundtrip_minimal tblAU rfl).2⟩

/-! ## Claim C6: the EF-mid-record error and its line number -/

theorem nextRecordLinesAux_ef (ef : String) (rest : List String)
    (hef : strStartsWith (rstripNl ef) "EF" = true) :
    ∀ (pre : List String) (c : Nat) (acc : List String),
      (∀ l ∈ pre, rstripNl l ≠ "" →
        strStartsWith (rstripNl l) "EF" = false ∧
        strStartsWith (rstripNl l) "ER" = false) →
      (acc ≠ [] ∨ ∃ l ∈ pre, rstripNl l ≠ "") →
      nextRecordLinesAux (pre ++ ef :: rest) c acc
        = (.error (.readError (efErrorMsg (c + pre.length + 1))), rest,
           c + pre.length + 1) := by
  intro pre
  induction pre with
  | nil =>
    intro c acc hpre hacc
    have hacc' : acc ≠ [] := by
      rcases hacc with hne | ⟨l, hl, _⟩
      · exact hne
      · simp at hl
    have hef' : rstripNl ef ≠ "" := by
      intro he
      rw [he] at hef
      exact absurd hef (by decide)
    simp [nextRecordLinesAux, hef, hef', hacc']
  | cons l pre' ih =>
    intro c acc hpre hacc
    have harith : c + (l :: pre').length + 1 = (c + 1) + pre'.length + 1 := by
      simp [List.length_cons]
      omega
    by_cases hl : rstripNl l = ""
    · have hstep : nextRecordLinesAux ((l :: pre') ++ ef :: rest) c acc
          = nextRecordLinesAux (pre' ++ ef :: rest) (c + 1) acc := by
        simp [nextRecordLinesAux, hl]
      have hacc2 : acc ≠ [] ∨ ∃ x ∈ pre', rstripNl x ≠ "" := by
        rcases hacc with hne | ⟨x, hx, hxne⟩
        · exact Or.inl hne
        · rcases List.mem_cons.mp hx with hxl | hxp
          · exact absurd (hxl ▸ hl) hxne
          · exact Or.inr ⟨x, hxp, hxne⟩
      rw [harith, hstep]
      exact ih (c + 1) acc (fun x hx hxne => hpre x (List.mem_cons_of_mem l hx) hxne) hacc2
    · have hlp := hpre l (List.mem_cons_self l pre') hl
      have hstep : nextRecordLinesAux ((l :: pre') ++ ef :: rest) c acc
          = nextRecordLinesAux (pre' ++ ef :: rest) (c + 1) (acc ++ [rstripNl l]) := by
        simp [nextRecordLinesAux, hl, hlp.1, hlp.2]
      rw [harith, hstep]
      exact ih (c + 1) (acc ++ [rstripNl l])
        (fun x hx hxne => hpre x (List.mem_cons_of_mem l hx) hxne)
        (Or.inl (by simp))

/-- Claim C6: for every plain-text stream in which an `EF` line is
reached while one or more (non-empty, non-marker) lines have already
been collected for the current record, the read raises the
malformed-input `ReadError`, and the message cites the 1-based line
number of the `EF` line: with `c` lines already consumed before this
state, the `EF` line sits `pre.length + 1` raw lines further on, i.e.
at overall 1-based position `c + pre.length + 1`. -/
theorem ef_mid_record_error_line_number (tbl : String → Option Bool)
    (pre : List String) (ef : String) (rest : List String) (sd : String)
    (c : Nat)
    (hpre : ∀ l ∈ pre, rstripNl l ≠ "" →
      strStartsWith (rstripNl l) "EF" = false ∧
      strStartsWith (rstripNl l) "ER" = false)
    (hcollected : ∃ l ∈ pre, rstripNl l ≠ "")
    (hef : strStartsWith (rstripNl ef) "EF" = true) :
    (PlainTextReader.next tbl
        { lines := pre ++ ef :: rest, subdelimiter := sd,
          current_line := c }).1
      = .error (.readError (efErrorMsg (c + pre.length + 1))) := by
  have haux := nextRecordLinesAux_ef ef rest hef pre c [] hpre
    (Or.inr hcollected)
  have hnl : nextRecordLines
      { lines := pre ++ ef :: rest, subdelimiter := sd, current_line := c }
      = (.error (.readError (efErrorMsg (c + pre.length + 1))),
         { lines := rest, subdelimiter := sd,
           current_line := c + pre.length + 1 }) := by
    unfold nextRecordLines
    dsimp only
    rw [haux]
  unfold PlainTextReader.next
  dsimp only
  rw [hnl]

/-- Witness for C6: the state holding `AU a` then `EF` with two lines
already consumed errors citing line 4. -/
theorem ef_mid_record_error_line_number_witness :
    (PlainTextReader.next tblAU
        { lines := ["AU a", "EF"], subdelimiter := "; ",
          current_line := 2 }).1
      = .error (.readError (efErrorMsg 4)) := by
  have := ef_mid_record_error_line_number tblAU ["AU a"] "EF" [] "; " 2
    (by decide) (by decide) (by decide)
  simpa using this

/-! ## Claim C8: overrides across a multi-source read -/

/-- Claim C8 fails on the code (a bug in `read`): the recursive call
`read(actual_fname)` in the multiple-file branch drops `using`,
`encoding` and the keyword options.  Evaluation at the failing input:
for a one-element source list over a file whose content starts with
`FN ` and with the explicit `using=TabDelimitedReader` override, the
multi-source read ignores the override (re-sniffing selects the
plain-text reader and yields its single record), whereas the
single-source read with the same override honors it (the tab-delimited
engine yields four records), so the two disagree. -/
theorem read_list_drops_overrides :
    read tblAU fsPlainFile (FName.list ["f"]) argsTab
      = ([[(some "AU", PyVal.str "a")]], Option.none)
    ∧ read tblAU fsPlainFile (FName.str "f") argsTab
      = ([[(some "FN X", PyVal.str "VR 1.0")], [(some "FN X", PyVal.str "AU a")],
          [(some "FN X", PyVal.str "ER")], [(some "FN X", PyVal.str "EF")]],
         Option.none)
    ∧ read tblAU fsPlainFile (FName.list ["f"]) argsTab
        ≠ read tblAU fsPlainFile (FName.str "f") argsTab := by
  have hplain : readSingle tblAU fsPlainFile "f" defaultReadArgs
      = ([[(some "AU", PyVal.str "a")]], Option.none) := by
    have hn1 : PlainTextReader.next tblAU
        { lines := ["AU a", "ER", "EF"], subdelimiter := "; ", current_line := 2 }
        = (.ok [(some "AU", PyVal.str "a")],
           { lines := ["EF"], subdelimiter := "; ", current_line := 4 }) := by
      decide
    have hn2 : PlainTextReader.next tblAU
        { lines := ["EF"], subdelimiter := "; ", current_line := 4 }
        = (.error .stopIteration,
           { lines := [], subdelimiter := "; ", current_line := 5 }) := by
      decide
    show ((drainPlain tblAU ⟨["AU a", "ER", "EF"], "; ", 2⟩).1,
          (drainPlain tblAU ⟨["AU a", "ER", "EF"], "; ", 2⟩).2.1) = _
    rw [drainPlain_next_ok hn1, drainPlain_next_stop hn2]
  have ht1 : TabDelimitedReader.next
      { fieldnames := ["FN X"], rows := [["VR 1.0"], ["AU a"], ["ER"], ["EF"]] }
      = (.ok [(some "FN X", PyVal.str "VR 1.0")],
         { fieldnames := ["FN X"], rows := [["AU a"], ["ER"], ["EF"]] }) := by
    decide
  have ht2 : TabDelimitedReader.next
      { fieldnames := ["FN X"], rows := [["AU a"], ["ER"], ["EF"]] }
      = (.ok [(some "FN X", PyVal.str "AU a")],
         { fieldnames := ["FN X"], rows := [["ER"], ["EF"]] }) := by
    decide
  have ht3 : TabDelimitedReader.next
      { fieldnames := ["FN X"], rows := [["ER"], ["EF"]] }
      = (.ok [(some "FN X", PyVal.str "ER")],
         { fieldnames := ["FN X"], rows := [["EF"]] }) := by
    decide
  have ht4 : TabDelimitedReader.next
      { fieldnames := ["FN X"], rows := [["EF"]] }
      = (.ok [(some "FN X", PyVal.str "EF")],
         { fieldnames := ["FN X"], rows := [] }) := by
    decide
  have ht5 : TabDelimitedReader.next { fieldnames := ["FN X"], rows := [] }
      = (.error .stopIteration, { fieldnames := ["FN X"], rows := [] }) := by
    decide
  have htab : readSingle tblAU fsPlainFile "f" argsTab
      = ([[(some "FN X", PyVal.str "VR 1.0")], [(some "FN X", PyVal.str "AU a")],
          [(some "FN X", PyVal.str "ER")], [(some "FN X", PyVal.str "EF")]],
         Option.none) := by
    show ((drainTab ⟨["FN X"], [["VR 1.0"], ["AU a"], ["ER"], ["EF"]]⟩).1,
          (drainTab ⟨["FN X"], [["VR 1.0"], ["AU a"], ["ER"], ["EF"]]⟩).2.1) = _
    rw [drainTab_next_ok ht1, drainTab_next_ok ht2, drainTab_next_ok ht3,
        drainTab_next_ok ht4, drainTab_next_stop ht5]
  have hlist : read tblAU fsPlainFile (FName.list ["f"]) argsTab
      = ([[(some "AU", PyVal.str "a")]], Option.none) := by
    show readMany tblAU fsPlainFile ["f"] = _
    simp only [readMany, hplain, List.append_nil]
  have hstr : read tblAU fsPlainFile (FName.str "f") argsTab
      = ([[(some "FN X", PyVal.str "VR 1.0")], [(some "FN X", PyVal.str "AU a")],
          [(some "FN X", PyVal.str "ER")], [(some "FN X", PyVal.str "EF")]],
         Option.none) := htab
  refine ⟨hlist, hstr, ?_⟩
  rw [hlist, hstr]
  decide

/-! ## Claim C10: the empty-heading trailing commit -/

theorem recordSet_mem {d : Record} {k : Option String} {v : PyVal}
    {kv : Option String × PyVal} (hkv : kv ∈ recordSet d k v) :
    (∃ w, (kv.1, w) ∈ d) ∨ kv.1 = k := by
  unfold recordSet at hkv
  split at hkv
  · obtain ⟨kv0, hkv0, hmap⟩ := List.mem_map.mp hkv
    by_cases heq : kv0.1 = k
    · rw [if_pos heq] at hmap
      right
      rw [← hmap]
    · rw [if_neg heq] at hmap
      left
      exact ⟨kv.2, by have := hmap ▸ hkv0; simpa using this⟩
  · rcases List.mem_append.mp hkv with hin | hin
    · exact Or.inl ⟨kv.2, by simpa using hin⟩
    · right
      simp at hin
      rw [hin]

theorem recordSet_ne_nil (d : Record) (k : Option String) (v : PyVal) :
    recordSet d k v ≠ [] := by
  unfold recordSet
  split
  · cases d with
    | nil => simp_all
    | cons a l => simp
  · simp

theorem parseGo_all_continuation (tbl : String → Option Bool) (sd : String)
    (h : tbl "" = Option.none) :
    ∀ (lines values : List String) (record : Record),
      (∀ l ∈ lines, strStartsWith l "  " = true) →
      parseGo tbl sd lines "" values record = .error .keyError := by
  intro lines
  induction lines with
  | nil =>
    intro values record _
    unfold parseGo formatValues
    rw [h]
    rfl
  | cons l ls ih =>
    intro values record hall
    have hl := hall l (List.mem_cons_self l ls)
    unfold parseGo
    rw [if_neg (by simp [hl])]
    exact ih _ _ (fun x hx => hall x (List.mem_cons_of_mem l hx))

theorem parseGo_ok_ne_nil (tbl : String → Option Bool) (sd : String) :
    ∀ (lines : List String) (heading : String) (values : List String)
      (record rec : Record),
      parseGo tbl sd lines heading values record = .ok rec → rec ≠ [] := by
  intro lines
  induction lines with
  | nil =>
    intro heading values record rec hok
    unfold parseGo at hok
    cases hfv : formatValues tbl sd heading values with
    | error e => rw [hfv] at hok; exact absurd hok (by simp [Except.bind])
    | ok v =>
      rw [hfv] at hok
      simp only [Except.bind] at hok
      injection hok with hok
      rw [← hok]
      exact recordSet_ne_nil _ _ _
  | cons l ls ih =>
    intro heading values record rec hok
    unfold parseGo at hok
    split at hok
    · cases hstep : (if heading ≠ "" then
          (formatValues tbl sd heading values).bind
            (fun v => Except.ok (recordSet record (some heading) (.str v)))
        else Except.ok record) with
      | error e => rw [hstep] at hok; exact absurd hok (by simp [Except.bind])
      | ok record2 =>
        rw [hstep] at hok
        simp only [Except.bind] at hok
        cases hsplit : pySplit1 l with
        | none => rw [hsplit] at hok; exact absurd hok (by simp)
        | some hv =>
          rw [hsplit] at hok
          exact ih _ _ _ _ hok
    · exact ih _ _ _ _ hok

theorem parseGo_ok_opened (tbl : String → Option Bool) (sd : String)
    (h : tbl "" = Option.none) :
    ∀ (lines : List String) (heading : String) (values : List String)
      (record rec : Record),
      parseGo tbl sd lines heading values record = .ok rec →
      ∀ kv ∈ rec, (∃ w, (kv.1, w) ∈ record)
        ∨ (heading ≠ "" ∧ kv.1 = some heading)
        ∨ OpenedBy lines kv.1 := by
  intro lines
  induction lines with
  | nil =>
    intro heading values record rec hok kv hkv
    unfold parseGo at hok
    have hne : heading ≠ "" := by
      intro hh
      subst hh
      rw [show formatValues tbl sd "" values = .error .keyError from by
        unfold formatValues; rw [h]] at hok
      exact absurd hok (by simp [Except.bind])
    cases hfv : formatValues tbl sd heading values with
    | error e => rw [hfv] at hok; exact absurd hok (by simp [Except.bind])
    | ok v =>
      rw [hfv] at hok
      simp only [Except.bind] at hok
      injection hok with hok
      rw [← hok] at hkv
      rcases recordSet_mem hkv with hmem | hk
      · exact Or.inl hmem
      · exact Or.inr (Or.inl ⟨hne, hk⟩)
  | cons l ls ih =>
    intro heading values record rec hok kv hkv
    unfold parseGo at hok
    split at hok
    · rename_i hnewfield
      cases hstep : (if heading ≠ "" then
          (formatValues tbl sd heading values).bind
            (fun v => Except.ok (recordSet record (some heading) (.str v)))
        else Except.ok record) with
      | error e => rw [hstep] at hok; exact absurd hok (by simp [Except.bind])
      | ok record2 =>
        rw [hstep] at hok
        simp only [Except.bind] at hok
        cases hsplit : pySplit1 l with
        | none => rw [hsplit] at hok; exact absurd hok (by simp)
        | some hv =>
          rw [hsplit] at hok
          have hrec2 : ∀ kv2 : Option String × PyVal, (∃ w, (kv2.1, w) ∈ record2) →
              (∃ w, (kv2.1, w) ∈ record)
                ∨ (heading ≠ "" ∧ kv2.1 = some heading) := by
            intro kv2 ⟨w, hw⟩
            by_cases hh : heading ≠ ""
            · rw [if_pos hh] at hstep
              cases hfv : formatValues tbl sd heading values with
              | error e => rw [hfv] at hstep; exact absurd hstep (by simp [Except.bind])
              | ok v =>
                rw [hfv] at hstep
                simp only [Except.bind] at hstep
                injection hstep with hstep
                rw [← hstep] at hw
                rcases recordSet_mem hw with hmem | hk
                · exact Or.inl hmem
                · exact Or.inr ⟨hh, hk⟩
            · rw [if_neg hh] at hstep
              injection hstep with hstep
              rw [← hstep] at hw
              exact Or.inl ⟨w, hw⟩
          rcases ih _ _ _ _ hok kv hkv with hmem | hhead | hop
          · rcases hrec2 kv hmem with hmem2 | hk
            · exact Or.inl hmem2
            · exact Or.inr (Or.inl hk)
          · refine Or.inr (Or.inr ⟨l, List.mem_cons_self l ls, ?_, hv, hsplit, hhead.2⟩)
            simpa using hnewfield
          · obtain ⟨x, hx, hrest⟩ := hop
            exact Or.inr (Or.inr ⟨x, List.mem_cons_of_mem l hx, hrest⟩)
    · rcases ih _ _ _ _ hok kv hkv with hmem | hhead | hop
      · exact Or.inl hmem
      · exact Or.inr (Or.inl hhead)
      · obtain ⟨x, hx, hrest⟩ := hop
        exact Or.inr (Or.inr ⟨x, List.mem_cons_of_mem l hx, hrest⟩)

/-- Counterexample to claim C10 as stated: a record whose first line is
a continuation line but which later contains a new-field line does not
run the trailing commit with the empty heading at all: with `""` absent
from the table (`tblAU`), no `KeyError` occurs; the record parses
successfully (silently discarding the leading continuation values) and
its only heading is the one opened by the later new-field line. -/
theorem continuation_then_field_no_empty_lookup :
    strStartsWith "  x" "  " = true
    ∧ tblAU "" = Option.none
    ∧ PlainTextReader.next tblAU
        { lines := ["  x", "AU y", "ER"], subdelimiter := "; ", current_line := 2 }
        = (.ok [(some "AU", PyVal.str "y")],
           { lines := [], subdelimiter := "; ", current_line := 5 })
    ∧ parseRecord tblAU "; " ["  x", "AU y"] ≠ .error .keyError := by
  refine ⟨?_, ?_, ?_, ?_⟩ <;> decide

/-- Claim C10 (amended): for a plain-text record whose collected line
list is empty, or all of whose collected lines are continuation lines,
the trailing-field commit still runs with the empty-string heading,
performing an unguarded lookup of `""` in the field-classification
table instead of returning an empty record (a `KeyError` when `""` is
absent from the table); and every successfully returned record contains
at least one field, each committed under a heading opened by a
new-field line of the record.  (A record that starts with continuation
lines but later opens a field silently discards the leading values and
performs no `""` lookup, per the counterexample.) -/
theorem empty_record_commit_amended (tbl : String → Option Bool) (sd : String)
    (h : tbl "" = Option.none) :
    parseRecord tbl sd [] = .error .keyError
    ∧ (∀ lines : List String, (∀ l ∈ lines, strStartsWith l "  " = true) →
        parseRecord tbl sd lines = .error .keyError)
    ∧ (∀ (lines : List String) (rec : Record),
        parseRecord tbl sd lines = .ok rec →
        rec ≠ [] ∧ ∀ kv ∈ rec, OpenedBy lines kv.1) := by
  refine ⟨?_, ?_, ?_⟩
  · exact parseGo_all_continuation tbl sd h [] [] [] (by simp)
  · intro lines hall
    exact parseGo_all_continuation tbl sd h lines [] [] hall
  · intro lines rec hok
    refine ⟨parseGo_ok_ne_nil tbl sd lines "" [] [] rec hok, ?_⟩
    intro kv hkv
    rcases parseGo_ok_opened tbl sd h lines "" [] [] rec hok kv hkv with
      ⟨w, hw⟩ | hhead | hop
    · simp at hw
    · exact absurd rfl hhead.1
    · exact hop

/-- Witness for the amended C10 with the concrete table `tblAU` (which
has no `""` entry): both the empty record and the all-continuation
record raise `KeyError` from the trailing commit's `""` lookup, and the
successfully parsed record `AU y` is non-empty with its heading opened
by the `AU y` new-field line. -/
theorem empty_record_commit_amended_witness :
    parseRecord tblAU "; " [] = .error .keyError
    ∧ parseRecord tblAU "; " ["  x"] = .error .keyError
    ∧ ([(some "AU", PyVal.str "y")] : Record) ≠ []
    ∧ OpenedBy ["AU y"] (some "AU") :=
  ⟨(empty_record_commit_amended tblAU "; " (by decide)).1,
   (empty_record_commit_amended tblAU "; " (by decide)).2.1 ["  x"] (by decide),
   ((empty_record_commit_amended tblAU "; " (by decide)).2.2 ["AU y"]
      [(some "AU", PyVal.str "y")] (by decide)).1,
   ((empty_record_commit_amended tblAU "; " (by decide)).2.2 ["AU y"]
      [(some "AU", PyVal.str "y")] (by decide)).2
      (some "AU", PyVal.str "y") (by decide)⟩

end Wos
